import Mathlib

/-
Verification development for scripts/assemble_helper.py.

The script runs an external assembler, classifies its captured standard
output by the literal markers FAILED and SUCCEEDED, extracts a byte
sequence from hex-dump lines with the Python regular expression

    re.compile(r os [0-9a-f]+ colon backslash-s+ (([0-9a-f]2 backslash-s*)+), re.MULTILINE | re.IGNORECASE)

via findall, and writes the bytes to the output file.

The embedding below models the text as List Char.  The regular
expression is compiled by hand into a deterministic scanner that follows
the greedy, non-backtracking behaviour this particular pattern has:
no construct after a greedy quantifier can match a character admitted by
that quantifier, so the Python engine never backtracks on this pattern.
Whitespace is modelled as the six ASCII whitespace characters recognised
by backslash-s on ASCII text (space, tab, newline, carriage return,
vertical tab, form feed); the script only ever meets ASCII output.
Fuel arguments bound recursion; every step consumes at least one
character, so fuel equal to the length of the input plus one is always
sufficient and the fuelled functions compute exactly the Python
behaviour on every input.
-/

namespace AssembleHelper

/-- Character class of the regex [0-9a-f] under re.IGNORECASE:
decimal digits, lowercase a-f, uppercase A-F. -/
def isHexDigitCI (c : Char) : Bool :=
  (decide (48 ≤ c.toNat) && decide (c.toNat ≤ 57)) ||
  (decide (97 ≤ c.toNat) && decide (c.toNat ≤ 102)) ||
  (decide (65 ≤ c.toNat) && decide (c.toNat ≤ 70))

/-- Whitespace class of backslash-s restricted to ASCII:
space, tab, newline, carriage return, vertical tab, form feed.
These are also the characters str.split and str.strip treat as
whitespace on ASCII text. -/
def isSpaceCh (c : Char) : Bool :=
  c == ' ' || c == '\t' || c == '\n' || c == '\r' ||
  c == '\x0b' || c == '\x0c'

/-- Value of one hexadecimal digit, as int(token, 16) assigns it.
Characters outside the table never occur in the tokens the script
parses, because tokens consist of characters matched by [0-9a-f]. -/
def hexVal (c : Char) : Nat :=
  if 48 ≤ c.toNat ∧ c.toNat ≤ 57 then c.toNat - 48
  else if 97 ≤ c.toNat ∧ c.toNat ≤ 102 then c.toNat - 87
  else if 65 ≤ c.toNat ∧ c.toNat ≤ 70 then c.toNat - 55
  else 0

/-- Base-16 value of a digit string, as int(token, 16) computes it. -/
def parseHexL (l : List Char) : Nat :=
  l.foldl (fun a c => a * 16 + hexVal c) 0

/-- Does the second list start with the first one?  Used to model the
Python substring test. -/
def startsWithL : List Char → List Char → Bool
  | [], _ => true
  | _ :: _, [] => false
  | p :: ps, c :: cs => p == c && startsWithL ps cs

/-- Substring containment, modelling the Python expression
pat in s on strings. -/
def containsSubstrL : List Char → List Char → Bool
  | pat, [] => startsWithL pat []
  | pat, c :: r => startsWithL pat (c :: r) || containsSubstrL pat r

/-- String-level wrapper for substring containment. -/
def containsSubstr (pat s : String) : Bool :=
  containsSubstrL pat.data s.data

/-- One-or-more repetitions of the regex group ([0-9a-f]2 backslash-s*),
greedy.  Returns the captured characters together with the rest of the
input.  An empty capture means the group matched zero units, hence the
group as a whole fails.  Each unit consumes at least two characters, so
fuel equal to the input length is always sufficient. -/
def groupUnitsF : Nat → List Char → List Char × List Char
  | 0, l => ([], l)
  | n + 1, c1 :: c2 :: rest =>
    if isHexDigitCI c1 && isHexDigitCI c2 then
      let res := groupUnitsF n (rest.dropWhile isSpaceCh)
      (c1 :: c2 :: (rest.takeWhile isSpaceCh ++ res.1), res.2)
    else ([], c1 :: c2 :: rest)
  | _ + 1, l => ([], l)

/-- Attempt to match the full pattern at a line-start position:
an address of one or more hex digits, a colon, one or more whitespace
characters, then the captured group of hex pairs.  Returns the captured
group together with the rest of the input after the whole match.
The greedy quantifiers never backtrack on this pattern: a colon is not a
hex digit and a hex digit is not whitespace. -/
def matchAtF (l : List Char) : Option (List Char × List Char) :=
  if (l.takeWhile isHexDigitCI).isEmpty then none
  else
    let r1 := l.dropWhile isHexDigitCI
    if r1.head? = some ':' then
      let r2 := r1.tail
      if (r2.takeWhile isSpaceCh).isEmpty then none
      else
        let r3 := r2.dropWhile isSpaceCh
        let res := groupUnitsF (r3.length + 1) r3
        if res.1.isEmpty then none else some (res.1, res.2)
    else none

/-- Scanner modelling re.findall with re.MULTILINE: the anchor matches
at position zero and right after every newline; after a successful match
scanning resumes at the end of the match, so the position after the
match is a line start exactly when the last matched character is a
newline.  Every step consumes at least one character. -/
def scanF : Nat → List Char → Bool → List (List Char)
  | 0, _, _ => []
  | _ + 1, [], _ => []
  | n + 1, c :: r, atStart =>
    if atStart then
      match matchAtF (c :: r) with
      | some (cap, rest) => cap :: scanF n rest (cap.getLast? == some '\n')
      | none => scanF n r (c == '\n')
    else scanF n r (c == '\n')

/-- All captured groups of hex_pattern.findall on the text, in order. -/
def findallL (l : List Char) : List (List Char) :=
  scanF (l.length + 1) l true

/-- String-level wrapper: matches = hex_pattern.findall(result.stdout). -/
def findall (s : String) : List (List Char) :=
  findallL s.data

/-- Python str.strip on ASCII text: remove leading and trailing
whitespace. -/
def stripL (l : List Char) : List Char :=
  ((l.dropWhile isSpaceCh).reverse.dropWhile isSpaceCh).reverse

/-- Python str.split with no arguments on ASCII text: split on runs of
whitespace, dropping empty pieces.  Each step consumes at least one
character, so fuel equal to the input length is always sufficient. -/
def tokenizeF : Nat → List Char → List (List Char)
  | 0, _ => []
  | _ + 1, [] => []
  | n + 1, c :: r =>
    if isSpaceCh c then tokenizeF n r
    else (c :: r.takeWhile (fun d => !isSpaceCh d)) ::
      tokenizeF n (r.dropWhile (fun d => !isSpaceCh d))

/-- Tokenisation with sufficient fuel. -/
def tokenizeL (l : List Char) : List (List Char) :=
  tokenizeF (l.length + 1) l

/-- The tokens of one captured group: match.strip().split(). -/
def lineTokens (cap : List Char) : List (List Char) :=
  tokenizeL (stripL cap)

/-- The byte values the script collects: for every match, in order, the
parsed tokens of the captured group, in order (the code_bytes list of
the script, lines 48-52). -/
def extractValuesL (l : List Char) : List Nat :=
  ((findallL l).map (fun cap => (lineTokens cap).map parseHexL)).flatten

/-- String-level wrapper: the full ByteSequence extracted from the
captured standard output. -/
def extractBytes (s : String) : List Nat :=
  extractValuesL s.data

/-- Outcome classification of the captured output (spec section 3). -/
inductive OutcomeClassification where
  | Failed
  | UnexpectedOutput
  | Proceed
deriving DecidableEq

/-- Marker string tested first by the script (line 27). -/
def failedMarker : String := "FAILED"

/-- Marker string tested second by the script (line 32). -/
def succeededMarker : String := "SUCCEEDED"

/-- Classifier of the captured output, reifying the if-chain of lines
27-35 of the script into the OutcomeClassification type. -/
def classify (s : String) : OutcomeClassification :=
  if containsSubstr failedMarker s then .Failed
  else if !(containsSubstr succeededMarker s) then .UnexpectedOutput
  else .Proceed

/-- Result of subprocess.run with capture_output=True, text=True,
check=False: captured standard output, captured standard error, and the
exit status of the child.  The script only ever reads the stdout
field. -/
structure ProcResult where
  stdout : String
  stderr : String
  returncode : Int
deriving DecidableEq

/-- Outcome of attempting to launch ./build/test_asm.  The constructor
startError models subprocess.run raising an OSError other than
FileNotFoundError, for example PermissionError when the binary exists
but is not executable; the except clause on line 22 of the script
names only FileNotFoundError, so such an error is not caught there. -/
inductive LaunchOutcome where
  | launched (r : ProcResult)
  | fileNotFound
  | startError
deriving DecidableEq

/-- Result of one call of assemble_and_save.  retFalse and retTrue are
the two ordinary returns, carrying the lines printed on the way; retTrue
also carries the bytes written to the output file.  uncaught models an
exception that propagates out of the function (a ValueError from
bytes(code_bytes) on a value above 255, or an OSError other than
FileNotFoundError from subprocess.run), since neither is named by any
except clause of the script. -/
inductive SaveResult where
  | retFalse (printed : List String)
  | retTrue (fileBytes : List Nat) (printed : List String)
  | uncaught
deriving DecidableEq

/-- Message printed when the assembler binary is missing (line 23). -/
def notFoundMsg : String := "Error: ./build/test_asm not found. Run ./scripts/build.sh first."

/-- Message printed when the FAILED marker is present (line 28). -/
def failedMsg : String := "Assembly FAILED"

/-- Message printed when no marker is recognised (line 33). -/
def unexpectedMsg : String := "Unexpected output from test_asm"

/-- Message printed when no hex-dump line is found (line 43). -/
def noHexMsg : String := "Error: No hex dump found in output"

/-- Success message of line 59, with the byte count and the output
path interpolated. -/
def successMsg (n : Nat) (outFile : String) : String :=
  "✓ Assembly successful: " ++ toString n ++ " bytes written to " ++ outFile

/-- Diagnostic printed when the write raises an IOError (line 63); the
text of the underlying system error is abstracted. -/
def ioErrMsg : String := "Error writing output file: <IOError>"

/-- Does bytes(code_bytes) succeed?  The Python bytes constructor
raises ValueError unless every element lies in range(0, 256). -/
def bytesOk (l : List Nat) : Bool :=
  l.all (fun b => decide (b < 256))

/-- Model of assemble_and_save (lines 11-64).  The launch argument is
the outcome of the subprocess call; ioOk tells whether opening and
writing the output file completes without IOError; outFile is the
destination path (used only in the success message).  Note the order of
effects on lines 56-57: the file is opened first, then bytes(code_bytes)
is evaluated; a ValueError from an out-of-range value is not an IOError
and propagates uncaught. -/
def assemble_and_save (launch : LaunchOutcome) (ioOk : Bool) (outFile : String) : SaveResult :=
  match launch with
  | .fileNotFound => .retFalse [notFoundMsg]
  | .startError => .uncaught
  | .launched r =>
    if containsSubstr failedMarker r.stdout then
      .retFalse [failedMsg, r.stdout]
    else if !(containsSubstr succeededMarker r.stdout) then
      .retFalse [unexpectedMsg, r.stdout]
    else if (findall r.stdout).isEmpty then
      .retFalse [noHexMsg, r.stdout]
    else
      let code_bytes := extractBytes r.stdout
      if ioOk then
        if bytesOk code_bytes then
          .retTrue code_bytes [successMsg code_bytes.length outFile]
        else .uncaught
      else .retFalse [ioErrMsg]

/-- Contents of the output file after the call, given its prior
contents (none when the file did not exist).  Opening with mode wb
truncates, so a completed write replaces the prior contents entirely;
on every return that is not retTrue the file keeps its prior contents
because the script returns before open is reached. -/
def fileAfter (prior : Option (List Nat)) : SaveResult → Option (List Nat)
  | .retTrue bs _ => some bs
  | _ => prior

/-- Usage message of line 68. -/
def usageMsg : String := "Usage: assemble_helper.py <source.src> <output.bin>"

/-- Observable outcome of main: the process exit status, whether the
assembler subprocess was attempted, the lines printed, and whether the
run ended in an uncaught exception (which also terminates the process
with status 1, but as a crash rather than a sys.exit). -/
structure MainResult where
  exitCode : Nat
  ranAssembler : Bool
  printed : List String
  crashed : Bool
deriving DecidableEq

/-- Model of main (lines 66-75).  The argv list models sys.argv, whose
first element is the program name, so exactly two positional arguments
means argv has length three.  sys.argv[2] is the output path. -/
def mainModel (argv : List String) (launch : LaunchOutcome) (ioOk : Bool) : MainResult :=
  if argv.length ≠ 3 then
    ⟨1, false, [usageMsg], false⟩
  else
    match assemble_and_save launch ioOk (argv.getD 2 (String.mk [])) with
    | .retFalse p => ⟨1, true, p, false⟩
    | .retTrue _ p => ⟨0, true, p, false⟩
    | .uncaught => ⟨1, true, [], true⟩

/-- Split on newline characters, yielding the physical lines of the
text (used only to state the per-line reading of the spec). -/
def splitOnNl : List Char → List (List Char)
  | [] => [[]]
  | c :: r =>
    if c = '\n' then [] :: splitOnNl r
    else
      match splitOnNl r with
      | [] => [[c]]
      | h :: t => (c :: h) :: t

/-- Spec-side definition, following the words of the spec: the tokens
contributed by one physical line, namely the parsed tokens of the
captured group when the line matches the pattern, and nothing
otherwise.  Within a single physical line there is no newline, so the
same matcher expresses the per-line pattern. -/
def specLineBytes (line : List Char) : List Nat :=
  match matchAtF line with
  | some (cap, _) => (lineTokens cap).map parseHexL
  | none => []

/-- Spec-side definition, following the words of the spec: the
concatenation, over all physical lines in top-to-bottom order, of each
matching line-s whitespace-split hex tokens parsed base 16. -/
def specPerLineBytes (s : String) : List Nat :=
  ((splitOnNl s.data).map specLineBytes).flatten

/-- Case change on the six uppercase hexadecimal letters, leaving every
other character fixed.  Two texts differ only in the letter-case of hex
digits exactly when they agree under this map. -/
def hexCanon (c : Char) : Char :=
  if c = 'A' then 'a' else if c = 'B' then 'b' else if c = 'C' then 'c'
  else if c = 'D' then 'd' else if c = 'E' then 'e' else if c = 'F' then 'f'
  else c

/-- Round-trip example text of spec section 8: a SUCCEEDED marker
followed by two hex-dump lines. -/
def roundTripInput : String := "SUCCEEDED\n800: a9 00 8d 00 04\n805: 60"

/-- Captured output whose single dump line carries two adjacent hex
pairs with no whitespace between them. -/
def adjacentPairsInput : String := "SUCCEEDED\n800: a9b0"

/-- Captured output with the success marker and no dump line. -/
def noDumpInput : String := "SUCCEEDED"

/-- Captured output with one dump line of two separated pairs. -/
def smallDumpInput : String := "SUCCEEDED\n800: a9 60"

/-- Same text as smallDumpInput with the hex digits in upper case. -/
def smallDumpInputUpper : String := "SUCCEEDED\n800: A9 60"

/-- Captured output carrying both markers. -/
def bothMarkersInput : String := "SUCCEEDED ... FAILED"

/-- The empty string. -/
def emptyStr : String := ""

/-- Place-holder program name for argv. -/
def progName : String := "assemble_helper.py"

/-- Place-holder source path for argv. -/
def srcName : String := "prog.src"

/-- Place-holder output path for argv. -/
def outName : String := "out.bin"

end AssembleHelper

namespace AssembleHelper

/-- Claim C1: the claim states that the extracted ByteSequence is the
concatenation, over all physical lines matching the address plus
hex-bytes pattern in top-to-bottom order, of each line-s
whitespace-split tokens parsed base 16, with no line skipped and no
token dropped or duplicated.  On the round-trip text of the spec the
code disagrees with that reading: the greedy whitespace of the regex
crosses the newline and absorbs the first two digits of the next
address, so the code yields final byte 128 (hex 80) while the per-line
reading yields 96 (hex 60), the token 60 being dropped.  This theorem
evaluates both at the failing input. -/
theorem C1_extraction_not_per_line :
    extractBytes roundTripInput = [169, 0, 141, 0, 4, 128] ∧
    specPerLineBytes roundTripInput = [169, 0, 141, 0, 4, 96] ∧
    extractBytes roundTripInput ≠ specPerLineBytes roundTripInput := by
  decide

/-- Claim C3: the claim states that on the three-line round-trip text
the pipeline classifies Proceed and writes the six bytes a9 00 8d 00 04
60.  The code does classify Proceed and does write six bytes, but the
last byte written is 80 (the first two digits of the address 805),
not 60.  This theorem evaluates the pipeline at the failing input. -/
theorem C3_roundtrip_example_wrong_bytes :
    classify roundTripInput = .Proceed ∧
    assemble_and_save (.launched ⟨roundTripInput, emptyStr, 0⟩) true outName =
      .retTrue [169, 0, 141, 0, 4, 128] [successMsg 6 outName] ∧
    mainModel [progName, srcName, outName]
      (.launched ⟨roundTripInput, emptyStr, 0⟩) true =
      ⟨0, true, [successMsg 6 outName], false⟩ ∧
    extractBytes roundTripInput ≠ [169, 0, 141, 0, 4, 96] := by
  decide

/-- Claim C4, counterexample: two adjacent hex pairs with no whitespace
between them are captured as the single token a9b0, which parses to
43440, far above 255; the bytes constructor then raises an uncaught
ValueError, so serialization does fail. -/
theorem C4_counterexample_token_above_255 :
    extractBytes adjacentPairsInput = [43440] ∧ ¬ (43440 ≤ 255) ∧
    assemble_and_save (.launched ⟨adjacentPairsInput, emptyStr, 0⟩) true outName =
      .uncaught := by
  decide

/-- Claim C2: the classifier is exactly the three-case function with
FAILED taking priority, and only the Proceed classification lets the
pipeline advance past the marker checks; on any other classification
assemble_and_save returns False without extracting or writing. -/
theorem C2_classifier_three_cases (s : String) :
    (containsSubstr failedMarker s = true → classify s = .Failed) ∧
    (containsSubstr failedMarker s = false →
      containsSubstr succeededMarker s = false → classify s = .UnexpectedOutput) ∧
    (containsSubstr failedMarker s = false →
      containsSubstr succeededMarker s = true → classify s = .Proceed) ∧
    (∀ (r : ProcResult) (ioOk : Bool) (outFile : String), r.stdout = s →
      classify s ≠ .Proceed →
      ∃ p, assemble_and_save (.launched r) ioOk outFile = .retFalse p) := by
  refine ⟨fun h => by simp [classify, h],
    fun h h2 => by simp [classify, h, h2],
    fun h h2 => by simp [classify, h, h2], ?_⟩
  intro r ioOk outFile hr hnp
  subst hr
  by_cases hF : containsSubstr failedMarker r.stdout
  · exact ⟨[failedMsg, r.stdout], by simp [assemble_and_save, hF]⟩
  · by_cases hS : containsSubstr succeededMarker r.stdout
    · exact absurd (by simp [classify, hF, hS]) hnp
    · exact ⟨[unexpectedMsg, r.stdout], by simp [assemble_and_save, hF, hS]⟩

/-- Witness for C2 at a text holding both markers: the FAILED branch
wins. -/
theorem C2_classifier_three_cases_witness :
    classify bothMarkersInput = .Failed :=
  (C2_classifier_three_cases bothMarkersInput).1 (by decide)

/-- Claim C5: a captured output classified Proceed in which the pattern
matches nowhere makes assemble_and_save print the no-hex-dump error
together with the captured text and return False before the output file
is opened, so the file keeps its prior contents and main exits with
status 1. -/
theorem C5_no_dump_found (r : ProcResult) (ioOk : Bool) (outFile : String)
    (argv : List String) (prior : Option (List Nat))
    (hargv : argv.length = 3)
    (hc : classify r.stdout = .Proceed)
    (hm : findall r.stdout = []) :
    assemble_and_save (.launched r) ioOk outFile = .retFalse [noHexMsg, r.stdout] ∧
    fileAfter prior (assemble_and_save (.launched r) ioOk outFile) = prior ∧
    mainModel argv (.launched r) ioOk = ⟨1, true, [noHexMsg, r.stdout], false⟩ := by
  have hF : containsSubstr failedMarker r.stdout = false := by
    by_cases h : containsSubstr failedMarker r.stdout
    · simp [classify, h] at hc
    · simpa using h
  have hS : containsSubstr succeededMarker r.stdout = true := by
    by_cases h : containsSubstr succeededMarker r.stdout
    · simpa using h
    · simp [classify, hF, h] at hc
  have hsave : ∀ o : String,
      assemble_and_save (.launched r) ioOk o = .retFalse [noHexMsg, r.stdout] := by
    intro o
    simp [assemble_and_save, hF, hS, hm]
  refine ⟨hsave outFile, ?_, ?_⟩
  · rw [hsave outFile]; rfl
  · simp [mainModel, hargv, hsave]

/-- Witness for C5 at the output that only holds the marker. -/
theorem C5_no_dump_found_witness :
    assemble_and_save (.launched ⟨noDumpInput, emptyStr, 0⟩) true outName =
      .retFalse [noHexMsg, noDumpInput] :=
  (C5_no_dump_found ⟨noDumpInput, emptyStr, 0⟩ true outName
    [progName, srcName, outName] (some [1, 2]) (by decide) (by decide) (by decide)).1

/-- Claim C6: a wrong argument count (sys.argv length other than three,
that is, a positional-argument count other than two) prints the usage
message and exits 1 without attempting the assembler; with exactly two
positional arguments the exit status is 0 exactly when assemble_and_save
returns True, and the exit status is 1 exactly when it does not (any
failure outcome, the uncaught crash included), so every failure exits
with status 1. -/
theorem C6_usage_and_exit_codes (argv : List String) (launch : LaunchOutcome) (ioOk : Bool) :
    (argv.length ≠ 3 → mainModel argv launch ioOk = ⟨1, false, [usageMsg], false⟩) ∧
    (argv.length = 3 →
      ((mainModel argv launch ioOk).exitCode = 0 ↔
        ∃ bs p, assemble_and_save launch ioOk (argv.getD 2 (String.mk [])) =
          .retTrue bs p)) ∧
    (argv.length = 3 →
      ((mainModel argv launch ioOk).exitCode = 1 ↔
        ∀ bs p, assemble_and_save launch ioOk (argv.getD 2 (String.mk [])) ≠
          .retTrue bs p)) := by
  refine ⟨?_, ?_, ?_⟩
  · intro h
    simp [mainModel, h]
  · intro h
    simp only [mainModel, h]
    cases hsave : assemble_and_save launch ioOk (argv.getD 2 (String.mk [])) with
    | retFalse p => simp [hsave]
    | retTrue bs p => simp [hsave]
    | uncaught => simp [hsave]
  · intro h
    simp only [mainModel, h]
    cases hsave : assemble_and_save launch ioOk (argv.getD 2 (String.mk [])) with
    | retFalse p => simp [hsave]
    | retTrue bs p =>
      simp only [hsave]
      refine iff_of_false (by simp) ?_
      push_neg
      exact ⟨bs, p, rfl⟩
    | uncaught => simp [hsave]

/-- Witness for C6: an invocation with zero positional arguments gets
the usage result, and a two-argument invocation whose pipeline fails
(missing binary) exits with status 1. -/
theorem C6_usage_and_exit_codes_witness :
    mainModel [progName] .fileNotFound true = ⟨1, false, [usageMsg], false⟩ ∧
    (mainModel [progName, srcName, outName] .fileNotFound true).exitCode = 1 :=
  ⟨(C6_usage_and_exit_codes [progName] .fileNotFound true).1 (by decide),
    ((C6_usage_and_exit_codes [progName, srcName, outName] .fileNotFound true).2.2
      (by decide)).mpr (fun _ _ h => SaveResult.noConfusion h)⟩

/-- Claim C7: on the success path (Proceed classification, at least one
match, all collected values in byte range, no IO error) the writer
receives the full ByteSequence, the file contents afterwards are exactly
those bytes in order regardless of the prior contents of the path, and
the reported count is the length of the sequence. -/
theorem C7_writer_writes_all_bytes (r : ProcResult) (outFile : String)
    (prior : Option (List Nat))
    (hc : classify r.stdout = .Proceed)
    (hm : findall r.stdout ≠ [])
    (_hne : extractBytes r.stdout ≠ [])
    (hok : bytesOk (extractBytes r.stdout) = true) :
    assemble_and_save (.launched r) true outFile =
      .retTrue (extractBytes r.stdout)
        [successMsg (extractBytes r.stdout).length outFile] ∧
    fileAfter prior (assemble_and_save (.launched r) true outFile) =
      some (extractBytes r.stdout) := by
  have hF : containsSubstr failedMarker r.stdout = false := by
    by_cases h : containsSubstr failedMarker r.stdout
    · simp [classify, h] at hc
    · simpa using h
  have hS : containsSubstr succeededMarker r.stdout = true := by
    by_cases h : containsSubstr succeededMarker r.stdout
    · simpa using h
    · simp [classify, hF, h] at hc
  have hsave : assemble_and_save (.launched r) true outFile =
      .retTrue (extractBytes r.stdout)
        [successMsg (extractBytes r.stdout).length outFile] := by
    cases hfe : findall r.stdout with
    | nil => exact absurd hfe hm
    | cons m ms => simp [assemble_and_save, hF, hS, hfe, hok]
  exact ⟨hsave, by rw [hsave]; rfl⟩

/-- Witness for C7 at a two-byte dump. -/
theorem C7_writer_writes_all_bytes_witness :
    assemble_and_save (.launched ⟨smallDumpInput, emptyStr, 0⟩) true outName =
      .retTrue (extractBytes smallDumpInput)
        [successMsg (extractBytes smallDumpInput).length outName] :=
  (C7_writer_writes_all_bytes ⟨smallDumpInput, emptyStr, 0⟩ outName none
    (by decide) (by decide) (by decide) (by decide)).1

/-- Claim C9, counterexample: a launch failure other than
FileNotFoundError (for example PermissionError when the binary exists
but cannot be started) is not caught by the except clause of line 22,
so it propagates as an uncaught exception instead of the reported
failure result the claim requires. -/
theorem C9_counterexample_start_error_crashes :
    assemble_and_save .startError true outName = .uncaught ∧
    mainModel [progName, srcName, outName] .startError true = ⟨1, true, [], true⟩ ∧
    SaveResult.uncaught ≠ .retFalse [notFoundMsg] := by
  decide

/-- Claim C9, amended: when the assembler binary cannot be located
(FileNotFoundError) the failure is caught, the fixed remediation hint is
printed, and main exits with status 1 without a crash. -/
theorem C9_not_found_is_handled (ioOk : Bool) (outFile : String)
    (argv : List String) (hargv : argv.length = 3) :
    assemble_and_save .fileNotFound ioOk outFile = .retFalse [notFoundMsg] ∧
    mainModel argv .fileNotFound ioOk = ⟨1, true, [notFoundMsg], false⟩ := by
  constructor
  · rfl
  · simp [mainModel, hargv, assemble_and_save]

/-- Witness for the amended C9. -/
theorem C9_not_found_is_handled_witness :
    mainModel [progName, srcName, outName] .fileNotFound true =
      ⟨1, true, [notFoundMsg], false⟩ :=
  (C9_not_found_is_handled true outName [progName, srcName, outName] (by decide)).2

/-- Claim C10: every decision and output of the pipeline depends only on
the captured standard output; two subprocess results with the same
stdout and arbitrarily different stderr and exit status give identical
results for assemble_and_save and for main. -/
theorem C10_stderr_never_influences (r1 r2 : ProcResult) (h : r1.stdout = r2.stdout)
    (ioOk : Bool) (outFile : String) (argv : List String) :
    assemble_and_save (.launched r1) ioOk outFile =
      assemble_and_save (.launched r2) ioOk outFile ∧
    mainModel argv (.launched r1) ioOk = mainModel argv (.launched r2) ioOk := by
  obtain ⟨o1, e1, c1⟩ := r1
  obtain ⟨o2, e2, c2⟩ := r2
  simp only at h
  subst h
  have hsave : ∀ o : String,
      assemble_and_save (.launched ⟨o1, e1, c1⟩) ioOk o =
        assemble_and_save (.launched ⟨o1, e2, c2⟩) ioOk o := fun _ => rfl
  exact ⟨hsave outFile, by simp only [mainModel, hsave]⟩

/-- Helper: every single hexadecimal digit has value at most 15. -/
theorem hexVal_le_15 (c : Char) : hexVal c ≤ 15 := by
  unfold hexVal
  split_ifs <;> omega

/-- Helper: a token of exactly two digits parses to a value of at most
255. -/
theorem parseHexL_pair_le_255 (a b : Char) : parseHexL [a, b] ≤ 255 := by
  have ha := hexVal_le_15 a
  have hb := hexVal_le_15 b
  simp only [parseHexL, List.foldl_cons, List.foldl_nil]
  omega

/-- Claim C4, amended: each value appended to the ByteSequence is the
base-16 value of a whitespace-split token of a captured group; whenever
every such token has exactly two digits (pairs separated by whitespace),
every value lies in [0, 255] and serialization cannot fail.  The
unrestricted claim is false: adjacent pairs with no whitespace between
them form one longer token whose value can exceed 255, and the bytes
constructor then raises. -/
theorem C4_two_digit_tokens_in_range (s : String)
    (h : ∀ cap ∈ findall s, ∀ t ∈ lineTokens cap, t.length = 2) :
    (extractBytes s).all (fun v => decide (v < 256)) = true := by
  rw [List.all_eq_true]
  intro v hv
  simp only [extractBytes, extractValuesL] at hv
  rw [List.mem_flatten] at hv
  obtain ⟨sub, hsub, hvsub⟩ := hv
  rw [List.mem_map] at hsub
  obtain ⟨cap, hcap, rfl⟩ := hsub
  rw [List.mem_map] at hvsub
  obtain ⟨t, ht, rfl⟩ := hvsub
  obtain ⟨a, b, rfl⟩ := List.length_eq_two.mp (h cap hcap t ht)
  have := parseHexL_pair_le_255 a b
  simp only [decide_eq_true_eq]
  omega

/-- Witness for the amended C4 at a dump of separated pairs. -/
theorem C4_two_digit_tokens_in_range_witness :
    (extractBytes smallDumpInput).all (fun v => decide (v < 256)) = true :=
  C4_two_digit_tokens_in_range smallDumpInput (by decide)

/-- Witness for C10: same stdout, different stderr and exit status. -/
theorem C10_stderr_never_influences_witness :
    assemble_and_save (.launched ⟨smallDumpInput, emptyStr, 0⟩) true outName =
      assemble_and_save (.launched ⟨smallDumpInput, srcName, 1⟩) true outName :=
  (C10_stderr_never_influences ⟨smallDumpInput, emptyStr, 0⟩
    ⟨smallDumpInput, srcName, 1⟩ rfl true outName [progName]).1

/-- Helper: hexCanon preserves the hex-digit class. -/
theorem hexCanon_isHex (c : Char) : isHexDigitCI (hexCanon c) = isHexDigitCI c := by
  unfold hexCanon
  split_ifs <;> first | rfl | (subst_vars; decide)

/-- Helper: hexCanon preserves the whitespace class. -/
theorem hexCanon_isSpace (c : Char) : isSpaceCh (hexCanon c) = isSpaceCh c := by
  unfold hexCanon
  split_ifs <;> first | rfl | (subst_vars; decide)

/-- Helper: hexCanon preserves the value of a digit. -/
theorem hexCanon_hexVal (c : Char) : hexVal (hexCanon c) = hexVal c := by
  unfold hexCanon
  split_ifs <;> first | rfl | (subst_vars; decide)

/-- Helper: hexCanon neither makes nor unmakes a colon. -/
theorem hexCanon_colon (c : Char) : hexCanon c = ':' ↔ c = ':' := by
  unfold hexCanon
  split_ifs <;> first | exact Iff.rfl | (subst_vars; decide)

/-- Helper: hexCanon neither makes nor unmakes a newline. -/
theorem hexCanon_nl (c : Char) : (hexCanon c == '\n') = (c == '\n') := by
  unfold hexCanon
  split_ifs <;> first | rfl | (subst_vars; decide)

/-- Helper: composition form of hexCanon_isHex. -/
theorem comp_isHex : isHexDigitCI ∘ hexCanon = isHexDigitCI :=
  funext hexCanon_isHex

/-- Helper: composition form of hexCanon_isSpace. -/
theorem comp_isSpace : isSpaceCh ∘ hexCanon = isSpaceCh :=
  funext hexCanon_isSpace

/-- Helper: composition form for the negated whitespace class. -/
theorem comp_notSpace : (fun d => !isSpaceCh d) ∘ hexCanon = (fun d => !isSpaceCh d) :=
  funext fun c => by simp [Function.comp, hexCanon_isSpace]

/-- Helper: mapping over a list does not change emptiness. -/
theorem isEmpty_map (f : Char → Char) (l : List Char) :
    (l.map f).isEmpty = l.isEmpty := by
  cases l <;> rfl

/-- Helper: hexCanon on an optional head neither makes nor unmakes a
colon. -/
theorem headOpt_colon_map (o : Option Char) :
    o.map hexCanon = some ':' ↔ o = some ':' := by
  cases o with
  | none => simp
  | some c => simp [hexCanon_colon c]

/-- Helper: hexCanon preserves the trailing-newline test. -/
theorem getLast_nl_map (cap : List Char) :
    ((cap.map hexCanon).getLast? == some '\n') = (cap.getLast? == some '\n') := by
  rw [List.getLast?_map]
  cases cap.getLast? with
  | none => rfl
  | some c => exact hexCanon_nl c

/-- Helper: the group matcher commutes with hexCanon. -/
theorem groupUnitsF_map : ∀ (n : Nat) (l : List Char),
    groupUnitsF n (l.map hexCanon) =
      ((groupUnitsF n l).1.map hexCanon, (groupUnitsF n l).2.map hexCanon) := by
  intro n
  induction n with
  | zero => intro l; rfl
  | succ n ih =>
    intro l
    match l with
    | [] => rfl
    | [c] => rfl
    | c1 :: c2 :: rest =>
      simp only [List.map_cons, groupUnitsF, hexCanon_isHex]
      by_cases h : (isHexDigitCI c1 && isHexDigitCI c2) = true
      · simp [h, List.takeWhile_map, List.dropWhile_map, comp_isSpace, ih]
      · simp only [Bool.not_eq_true] at h
        simp [h]

/-- Helper: the line matcher commutes with hexCanon. -/
theorem matchAtF_map (l : List Char) :
    matchAtF (l.map hexCanon) =
      (matchAtF l).map (fun pr => (pr.1.map hexCanon, pr.2.map hexCanon)) := by
  unfold matchAtF
  simp only [List.takeWhile_map, List.dropWhile_map, comp_isHex, comp_isSpace,
    isEmpty_map, List.head?_map, ← List.map_tail, List.length_map,
    headOpt_colon_map, groupUnitsF_map]
  repeat' split
  all_goals simp_all

/-- Helper: the scanner commutes with hexCanon. -/
theorem scanF_map : ∀ (n : Nat) (l : List Char) (b : Bool),
    scanF n (l.map hexCanon) b = (scanF n l b).map (List.map hexCanon) := by
  intro n
  induction n with
  | zero => intro l b; rfl
  | succ n ih =>
    intro l b
    match l with
    | [] => rfl
    | c :: r =>
      simp only [List.map_cons, scanF]
      cases b with
      | false =>
        simp only [Bool.false_eq_true, if_false]
        rw [hexCanon_nl c]
        exact ih r (c == '\n')
      | true =>
        simp only [if_true]
        rw [← List.map_cons hexCanon c r, matchAtF_map]
        cases hm : matchAtF (c :: r) with
        | none =>
          simp only [hm, Option.map_none']
          rw [hexCanon_nl c]
          exact ih r (c == '\n')
        | some pr =>
          obtain ⟨cap, rest⟩ := pr
          simp only [hm, Option.map_some']
          rw [getLast_nl_map, ih rest]
          simp

/-- Helper: tokenisation commutes with hexCanon. -/
theorem tokenizeF_map : ∀ (n : Nat) (l : List Char),
    tokenizeF n (l.map hexCanon) = (tokenizeF n l).map (List.map hexCanon) := by
  intro n
  induction n with
  | zero => intro l; rfl
  | succ n ih =>
    intro l
    match l with
    | [] => rfl
    | c :: r =>
      simp only [List.map_cons, tokenizeF, hexCanon_isSpace]
      by_cases h : isSpaceCh c = true
      · simp [h, ih]
      · simp only [Bool.not_eq_true] at h
        simp [h, List.takeWhile_map, List.dropWhile_map, comp_notSpace, ih]

/-- Helper: stripping commutes with hexCanon. -/
theorem stripL_map (l : List Char) :
    stripL (l.map hexCanon) = (stripL l).map hexCanon := by
  unfold stripL
  rw [List.dropWhile_map, comp_isSpace, ← List.map_reverse, List.dropWhile_map,
    comp_isSpace, ← List.map_reverse]

/-- Helper: the token list of a captured group commutes with
hexCanon. -/
theorem lineTokens_map (cap : List Char) :
    lineTokens (cap.map hexCanon) = (lineTokens cap).map (List.map hexCanon) := by
  unfold lineTokens tokenizeL
  rw [stripL_map, List.length_map, tokenizeF_map]

/-- Helper: parsing a token ignores the case of its digits. -/
theorem parseHexL_map (t : List Char) : parseHexL (t.map hexCanon) = parseHexL t := by
  unfold parseHexL
  rw [List.foldl_map]
  congr 1
  funext a c
  simp [hexCanon_hexVal]

/-- Helper: the whole extraction ignores the case of hex digits. -/
theorem extractValuesL_map (l : List Char) :
    extractValuesL (l.map hexCanon) = extractValuesL l := by
  unfold extractValuesL findallL
  rw [List.length_map, scanF_map, List.map_map]
  have hfun : ((fun cap => List.map parseHexL (lineTokens cap)) ∘ List.map hexCanon) =
      (fun cap => List.map parseHexL (lineTokens cap)) := by
    funext cap
    simp only [Function.comp_apply]
    rw [lineTokens_map, List.map_map]
    have hp : parseHexL ∘ List.map hexCanon = parseHexL := funext parseHexL_map
    rw [hp]
  rw [hfun]

/-- Claim C8: extraction is case-insensitive on hex digits: two
captured outputs that agree up to the letter-case of hexadecimal
digits (that is, agree after hexCanon is applied to every character)
produce identical ByteSequences. -/
theorem C8_hex_case_insensitive (s t : String)
    (h : s.data.map hexCanon = t.data.map hexCanon) :
    extractBytes s = extractBytes t := by
  unfold extractBytes
  rw [← extractValuesL_map s.data, h, extractValuesL_map t.data]

/-- Witness for C8: upper-case and lower-case dumps extract the same
bytes. -/
theorem C8_hex_case_insensitive_witness :
    extractBytes smallDumpInputUpper = extractBytes smallDumpInput :=
  C8_hex_case_insensitive smallDumpInputUpper smallDumpInput (by decide)

end AssembleHelper
